import Mathlib

/-!
Verification of the reduction/grouping engine (`src/unnamed/part_000`, a Cython
module with `Reducer`, `SeriesBinGrouper`, `SeriesGrouper`, `Slider`,
`apply_frame_axis0`, `BlockSlider`) and of the datetime conversion engine
(`src/pandas/_libs/tslib.pyx`: `array_to_datetime`,
`array_with_unit_to_datetime`, `format_array_from_datetime`).

The embedding keeps the source functions' names where Lean allows it.  Python
objects handed to the user callback and returned from it are modelled by small
inductive value types carrying exactly the attributes the engine inspects
(`is_array`, `len`, `shape`, `.values`, object identity of a piece and of its
index).  ndarray view headers (data pointer / shape[0] / strides[0]) are
modelled by `NDBuf` with the data pointer as an integer address.
-/

namespace PandasSpec

/-- A Python value as seen by the reduction engine: the engine only inspects
whether it is an ndarray (`util.is_array`), a list and its length, its
`shape` attribute, and a `.values` attribute holding an ndarray
(series-likes).  `none` models the uninitialised entries of
`np.empty(n, dtype=object)`. -/
inductive PyVal where
  | scalar
  | nparray (len : Nat)
  | pylist (len : Nat)
  | series (len : Nat)
  | none
  deriving DecidableEq

/-- `util.is_array(obj)` -/
def PyVal.is_array : PyVal → Bool
  | .nparray _ => true
  | _ => false

/-- `getattr(obj, 'shape', None)`: ndarrays and series-likes expose a 1-d
shape; lists and scalars have no `shape` attribute. -/
def PyVal.shape : PyVal → Option Nat
  | .nparray n => some n
  | .series n => some n
  | _ => Option.none

/-- `isinstance(obj, list) and len(obj) == cnt` -/
def PyVal.isListOfLen (v : PyVal) (cnt : Nat) : Bool :=
  match v with
  | .pylist n => n == cnt
  | _ => false

/-- The guard of `_get_result_array(obj, size, cnt)`: it raises
`ValueError('Function does not reduce')` exactly when this is true, and
otherwise returns `np.empty(size, dtype='O')`. -/
def get_result_array_raises (obj : PyVal) (cnt : Nat) : Bool :=
  obj.is_array || obj.isListOfLen cnt || (obj.shape == some cnt)

/-- `if hasattr(res, 'values') and util.is_array(res.values): res = res.values`
(the sparse-array escape of `_is_sparse_array` never fires for these values). -/
def unwrapValues : PyVal → PyVal
  | .series n => .nparray n
  | v => v

/-- `_extract_result(res)`: unwrap `.values`, then unwrap a 0-dim or a
length-one 1-dim ndarray to the bare scalar. -/
def _extract_result (res : PyVal) : PyVal :=
  match unwrapValues res with
  | .nparray n => if n == 1 then .scalar else .nparray n
  | v => v

/-- A 1-d ndarray view header: `data` pointer (modelled as an integer
address), `shape[0]` and `strides[0]`.  Lengths are `Int` because the engine
writes raw `counts[i]` values into `shape[0]`. -/
structure NDBuf where
  data : Int
  len : Int
  stride : Int
  deriving DecidableEq

/-- The `Slider` object: a re-aliasable window (`buf`) over a contiguous
`values` array, remembering the destination buffer's original header for
`reset`. -/
structure Slider where
  valuesData : Int
  stride : Int
  orig_data : Int
  orig_len : Int
  orig_stride : Int
  buf : NDBuf
  deriving DecidableEq

/-- `Slider.__init__(values, buf)`: record `buf`'s original header, then point
`buf` at `values`'s data with `values`'s stride (the length is untouched by
`__init__`). -/
def Slider.init (values buf : NDBuf) : Slider :=
  { valuesData := values.data
    stride := values.stride
    orig_data := buf.data
    orig_len := buf.len
    orig_stride := buf.stride
    buf := { data := values.data, len := buf.len, stride := values.stride } }

/-- `Slider.advance(k)` -/
def Slider.advance (s : Slider) (k : Int) : Slider :=
  { s with buf := { s.buf with data := s.buf.data + s.stride * k } }

/-- `Slider.set_length(length)` -/
def Slider.set_length (s : Slider) (length : Int) : Slider :=
  { s with buf := { s.buf with len := length } }

/-- `Slider.reset()` -/
def Slider.reset (s : Slider) : Slider :=
  { s with buf := { data := s.orig_data, len := s.orig_len, stride := s.orig_stride } }

/-- External collaborator `maybe_convert_objects` (from `pandas._libs.lib`):
best-effort narrowing of an object array to a uniform dtype.  It preserves the
sequence of stored values, which is all the engine's contracts here depend on,
so it is modelled as the identity on that sequence. -/
def maybe_convert_objects (rs : List PyVal) : List PyVal := rs

/-- Errors the reduction engine can raise. -/
inductive ReducerErr where
  | doesNotReduce
  | applyRaised
  | resultUnbound
  deriving DecidableEq

/-- `Reducer`, after `__init__` has normalised the 2-d input: `nresults`
chunks of `chunksize` elements each; `increment` is the byte step between
chunks; `hasTyp` records whether a series-like dummy was passed (so the
callback receives the cached series-like wrapper instead of the raw chunk
ndarray); `arrData` is `self.arr.data` and `chunkBuf` the ndarray header of
`self.dummy`. -/
structure Reducer where
  nresults : Nat
  chunksize : Nat
  increment : Int
  hasTyp : Bool
  arrData : Int
  chunkBuf : NDBuf

/-- The object handed to the callback `f` on every chunk: the cached
series-like wrapper when a series dummy was supplied, otherwise the raw chunk
ndarray.  Either way its length is `chunksize`. -/
def Reducer.fInput (r : Reducer) : PyVal :=
  if r.hasTyp then .series r.chunksize else .nparray r.chunksize

/-- The loop of `Reducer.get_result`: for each `i`, call `f`, unwrap a
`.values` payload, on chunk 0 run the `_get_result_array` does-not-reduce
check and allocate the result, store the result, and advance `chunk.data` by
`increment`.  The chunk header is returned on every path so the caller's
`finally` can be applied to it. -/
def Reducer.loop (r : Reducer) (f : Nat → PyVal → Except Unit PyVal) :
    Nat → Nat → NDBuf → Option (List PyVal) →
    Except ReducerErr (List PyVal) × NDBuf
  | 0, _, chunk, result =>
    match result with
    | Option.none => (.error .resultUnbound, chunk)
    | some rs => (.ok rs, chunk)
  | rem+1, i, chunk, result =>
    match f i r.fInput with
    | .error _ => (.error .applyRaised, chunk)
    | .ok res0 =>
      let res := unwrapValues res0
      match result with
      | Option.none =>
        if get_result_array_raises res r.chunksize then
          (.error .doesNotReduce, chunk)
        else
          Reducer.loop r f rem (i+1)
            { chunk with data := chunk.data + r.increment } (some [res])
      | some rs =>
        Reducer.loop r f rem (i+1)
          { chunk with data := chunk.data + r.increment } (some (rs ++ [res]))

/-- `Reducer.get_result`: grab `dummy_buf = chunk.data`, repoint the chunk at
`arr.data`, run the loop, and in `finally` restore `chunk.data = dummy_buf`
(its length and stride are never touched by this method).  When
`nresults == 0` the local `result` is never bound and the trailing
`result.dtype` access raises (`resultUnbound`). -/
def Reducer.get_result (r : Reducer) (f : Nat → PyVal → Except Unit PyVal) :
    Except ReducerErr (List PyVal) × NDBuf :=
  let dummy_buf := r.chunkBuf.data
  let chunk : NDBuf := { r.chunkBuf with data := r.arrData }
  let out := Reducer.loop r f r.nresults 0 chunk Option.none
  let chunk2 : NDBuf := { out.2 with data := dummy_buf }
  match out.1 with
  | .error e => (.error e, chunk2)
  | .ok rs => (.ok (maybe_convert_objects rs), chunk2)

/-- Errors of the two series groupers. -/
inductive GrouperErr where
  | doesNotReduce
  | applyRaised
  | noResult
  | indexError
  | resultUnbound
  deriving DecidableEq

/-- The `ngroups` kludge of `SeriesBinGrouper.__init__` (GH #1688):
`len(bins)` when the final edge already equals the data length, otherwise
`len(bins) + 1`. -/
def SeriesBinGrouper.ngroups (bins : List Nat) (n : Nat) : Nat :=
  if 0 < bins.length ∧ bins.getLast? = some n then bins.length else bins.length + 1

/-- The `counts` array built at the top of `SeriesBinGrouper.get_result`:
`counts = np.zeros(ngroups)`, then (since `ngroups > 0` always)
`counts[0] = bins[0]`, and for `1 ≤ i < ngroups`
`counts[i] = len(arr) - bins[i-1]` when `i` is the last group and
`bins[i] - bins[i-1]` otherwise.  With empty `bins` the `bins[0]` access
raises `IndexError`, modelled as `none`. -/
def SeriesBinGrouper.counts (bins : List Nat) (n : Nat) : Option (List Int) :=
  match bins with
  | [] => Option.none
  | b0 :: _ =>
    let g := SeriesBinGrouper.ngroups bins n
    some ((List.range g).map fun i =>
      if i = 0 then (b0 : Int)
      else if i = g - 1 then (n : Int) - (bins.getD (i-1) 0 : Nat)
      else ((bins.getD i 0 : Nat) : Int) - (bins.getD (i-1) 0 : Nat))

/-- Mutable state of the `SeriesBinGrouper.get_result` loop: the two sliders
and the lazily-created `result` object array (`none` until the first group's
result has been produced). -/
structure SBGState where
  islider : Slider
  vslider : Slider
  result : Option (List PyVal)

/-- The loop of `SeriesBinGrouper.get_result` over the per-group sizes
`counts[i]`: window both sliders to the group, call `f` on the cached
series-like wrapper (abstracted as `f i` since the window is a function of
the group index), `_extract_result`, create the result array on the first
group (running the `_get_result_array` does-not-reduce check), store
`result[i] = res`, and advance both sliders.  The slider states are returned
on every path so the caller's `finally` can reset them. -/
def SeriesBinGrouper.loop (f : Nat → Except Unit PyVal) (ngroups dummyLen : Nat) :
    List Int → Nat → SBGState → Option GrouperErr × SBGState
  | [], _, st => (Option.none, st)
  | gs :: rest, i, st =>
    let st := { st with islider := st.islider.set_length gs,
                        vslider := st.vslider.set_length gs }
    match f i with
    | .error _ => (some .applyRaised, st)
    | .ok res0 =>
      let res := _extract_result res0
      match st.result with
      | Option.none =>
        if get_result_array_raises res dummyLen then (some .doesNotReduce, st)
        else
          let st := { st with result := some ((List.replicate ngroups PyVal.none).set i res),
                              islider := st.islider.advance gs,
                              vslider := st.vslider.advance gs }
          SeriesBinGrouper.loop f ngroups dummyLen rest (i+1) st
      | some rs =>
        let st := { st with result := some (rs.set i res),
                            islider := st.islider.advance gs,
                            vslider := st.vslider.advance gs }
        SeriesBinGrouper.loop f ngroups dummyLen rest (i+1) st

/-- `SeriesBinGrouper` after `__init__`: the bin edges, the data length
`n = len(self.arr)`, the dummy length `len(self.dummy_arr)`, and the four
ndarray headers involved (`self.arr`, `self.index`, `self.dummy_arr`,
`self.dummy_index`). -/
structure SeriesBinGrouper where
  bins : List Nat
  n : Nat
  dummyLen : Nat
  arrBuf : NDBuf
  indexBuf : NDBuf
  dummy_arr : NDBuf
  dummy_index : NDBuf

/-- `SeriesBinGrouper.get_result`: build `counts`, construct the two sliders
(each repoints its dummy buffer), run the loop inside `try`, and in `finally`
reset both sliders; on success return `(result, counts)` after the external
`maybe_convert_objects` narrowing.  The second and third components are the
final headers of `dummy_arr` and `dummy_index`. -/
def SeriesBinGrouper.get_result (g : SeriesBinGrouper) (f : Nat → Except Unit PyVal) :
    Except GrouperErr (List PyVal × List Int) × NDBuf × NDBuf :=
  match SeriesBinGrouper.counts g.bins g.n with
  | Option.none => (.error .indexError, g.dummy_arr, g.dummy_index)
  | some counts =>
    let vslider := Slider.init g.arrBuf g.dummy_arr
    let islider := Slider.init g.indexBuf g.dummy_index
    let st0 : SBGState := { islider := islider, vslider := vslider, result := Option.none }
    let out := SeriesBinGrouper.loop f (SeriesBinGrouper.ngroups g.bins g.n)
      g.dummyLen counts 0 st0
    let bufs := (out.2.vslider.reset.buf, out.2.islider.reset.buf)
    match out.1 with
    | some e => (.error e, bufs.1, bufs.2)
    | Option.none =>
      match out.2.result with
      | Option.none => (.error .resultUnbound, bufs.1, bufs.2)
      | some rs => (.ok (maybe_convert_objects rs, counts), bufs.1, bufs.2)

/-- Mutable state of the `SeriesGrouper.get_result` loop: the two sliders,
the `counts` array, the lazily-created `result` object array, the running
`group_size`, and the loop index `pos` (used to key the callback, since the
window handed to the callback is a function of the position at which a run
ends). -/
structure SGState where
  islider : Slider
  vslider : Slider
  counts : List Int
  result : Option (List PyVal)
  group_size : Nat
  pos : Nat

/-- The loop of `SeriesGrouper.get_result` over the label array: grow
`group_size`; at the end of a maximal run (`i == n - 1 or lab != labels[i+1]`)
either skip the run entirely when `lab == -1` (advance, reset `group_size`),
or window the sliders, call `f`, `_extract_result`, create the result/counts
storage on the first computed run, and store `result[lab] = res`,
`counts[lab] = group_size` (an assignment, not an accumulation) before
advancing.  Labels are assumed in-range (`-1` or a valid group id): numpy
would raise `IndexError` for `lab ≥ ngroups` where `List.set` is a no-op. -/
def SeriesGrouper.loop (f : Nat → Except Unit PyVal) (ngroups dummyLen : Nat) :
    List Int → SGState → Option GrouperErr × SGState
  | [], st => (Option.none, st)
  | lab :: rest, st =>
    if rest.head? = some lab then
      SeriesGrouper.loop f ngroups dummyLen rest
        { st with group_size := st.group_size + 1, pos := st.pos + 1 }
    else if lab = -1 then
      SeriesGrouper.loop f ngroups dummyLen rest
        { st with islider := st.islider.advance ((st.group_size + 1 : Nat) : Int),
                  vslider := st.vslider.advance ((st.group_size + 1 : Nat) : Int),
                  group_size := 0, pos := st.pos + 1 }
    else
      match f st.pos with
      | .error _ =>
        (some .applyRaised,
          { st with
            islider := st.islider.set_length ((st.group_size + 1 : Nat) : Int),
            vslider := st.vslider.set_length ((st.group_size + 1 : Nat) : Int),
            group_size := st.group_size + 1 })
      | .ok res0 =>
        match st.result with
        | Option.none =>
          if get_result_array_raises (_extract_result res0) dummyLen then
            (some .doesNotReduce,
              { st with
                islider := st.islider.set_length ((st.group_size + 1 : Nat) : Int),
                vslider := st.vslider.set_length ((st.group_size + 1 : Nat) : Int),
                group_size := st.group_size + 1 })
          else
            SeriesGrouper.loop f ngroups dummyLen rest
              { st with
                result := some ((List.replicate ngroups PyVal.none).set lab.toNat
                  (_extract_result res0)),
                counts := st.counts.set lab.toNat ((st.group_size + 1 : Nat) : Int),
                islider := (st.islider.set_length ((st.group_size + 1 : Nat) : Int)).advance
                  ((st.group_size + 1 : Nat) : Int),
                vslider := (st.vslider.set_length ((st.group_size + 1 : Nat) : Int)).advance
                  ((st.group_size + 1 : Nat) : Int),
                group_size := 0, pos := st.pos + 1 }
        | some rs =>
          SeriesGrouper.loop f ngroups dummyLen rest
            { st with
              result := some (rs.set lab.toNat (_extract_result res0)),
              counts := st.counts.set lab.toNat ((st.group_size + 1 : Nat) : Int),
              islider := (st.islider.set_length ((st.group_size + 1 : Nat) : Int)).advance
                ((st.group_size + 1 : Nat) : Int),
              vslider := (st.vslider.set_length ((st.group_size + 1 : Nat) : Int)).advance
                ((st.group_size + 1 : Nat) : Int),
              group_size := 0, pos := st.pos + 1 }

/-- `SeriesGrouper` after `__init__`: the label array, `ngroups`, the dummy
length, and the four ndarray headers involved. -/
structure SeriesGrouper where
  labels : List Int
  ngroups : Nat
  dummyLen : Nat
  arrBuf : NDBuf
  indexBuf : NDBuf
  dummy_arr : NDBuf
  dummy_index : NDBuf

/-- `SeriesGrouper.get_result`: `counts = np.zeros(ngroups)`, build the two
sliders, run the loop inside `try`, reset both sliders in `finally`, then
raise `ValueError("No result.")` when no group was ever computed, else return
`(result, counts)` after `maybe_convert_objects`.  The second and third
components are the final headers of `dummy_arr` and `dummy_index`. -/
def SeriesGrouper.get_result (g : SeriesGrouper) (f : Nat → Except Unit PyVal) :
    Except GrouperErr (List PyVal × List Int) × NDBuf × NDBuf :=
  let vslider := Slider.init g.arrBuf g.dummy_arr
  let islider := Slider.init g.indexBuf g.dummy_index
  let st0 : SGState :=
    { islider := islider, vslider := vslider,
      counts := List.replicate g.ngroups 0, result := Option.none,
      group_size := 0, pos := 0 }
  let out := SeriesGrouper.loop f g.ngroups g.dummyLen g.labels st0
  let bufs := (out.2.vslider.reset.buf, out.2.islider.reset.buf)
  match out.1 with
  | some e => (.error e, bufs.1, bufs.2)
  | Option.none =>
    match out.2.result with
    | Option.none => (.error .noResult, bufs.1, bufs.2)
    | some rs => (.ok (maybe_convert_objects rs, out.2.counts), bufs.1, bufs.2)

/-- The pure counts-only projection of the `SeriesGrouper.get_result` loop:
same run detection, same skip of `-1` runs, same `counts[lab] = group_size`
assignment. -/
def countsFold : List Int → Nat → List Int → List Int
  | [], _, c => c
  | lab :: rest, gs, c =>
    if rest.head? = some lab then countsFold rest (gs + 1) c
    else if lab = -1 then countsFold rest 0 c
    else countsFold rest 0 (c.set lab.toNat ((gs + 1 : Nat) : Int))

/-- The maximal runs of a label list, as (label, run length) pairs. -/
def runs : List Int → List (Int × Nat)
  | [] => []
  | l :: rest =>
    match runs rest with
    | [] => [(l, 1)]
    | (l2, sz) :: rs => if l = l2 then (l2, sz + 1) :: rs else (l, 1) :: (l2, sz) :: rs

/-- Folding the per-run counts assignment over a run list. -/
def runsFold (rs : List (Int × Nat)) (c : List Int) : List Int :=
  rs.foldl (fun c p => if p.1 = -1 then c else c.set p.1.toNat (p.2 : Int)) c

/-- Sum of the sizes of the runs that are not labelled `-1`. -/
def runSizesSum (rs : List (Int × Nat)) : Int :=
  (rs.map (fun p => if p.1 = -1 then (0 : Int) else (p.2 : Int))).sum

/-- A Python object returned by the `apply_frame_axis0` callback, carrying
exactly the attributes the engine inspects: its own object identity (`oid`),
the identity of its `.index` attribute (`none` models the `AttributeError`
path for index-less results such as ints), and whether the engine
deep-copied it before storing. -/
structure PieceV where
  oid : Nat
  indexOid : Option Nat
  deepCopied : Bool
  deriving DecidableEq

/-- The frame passed to `apply_frame_axis0`: whether
`frame.index._has_complex_internals` (a MultiIndex), and the identities of
the reusable window object `slider.dummy` and of its index object.  One
window object and one index object are reused (repointed in place) across
all ranges. -/
structure FrameM where
  hasComplexInternals : Bool
  chunkOid : Nat
  chunkIndexOid : Nat
  deriving DecidableEq

/-- The window object (`chunk = slider.dummy`) handed to the callback on
every range. -/
def FrameM.chunk (fr : FrameM) : PieceV :=
  { oid := fr.chunkOid, indexOid := some fr.chunkIndexOid, deepCopied := false }

/-- The two `InvalidApply` raises of `apply_frame_axis0`, distinguished by
their messages: the complex-index precondition failure
(`'Cannot modify frame index internals'`) and the wrapper around a callback
exception (`'Let this error raise above us'`). -/
inductive ApplyErr where
  | complexIndex
  | callbackRaised
  deriving DecidableEq

/-- Observable buffer events of `apply_frame_axis0`: `BlockSlider`
construction, a `slider.move(starts[i], ends[i])`, and the final
`slider.reset()`.  Used to state that the complex-index check fires before
the slider is built or any pointer is moved. -/
inductive AEvent where
  | sliderInit
  | move (i : Nat)
  | reset
  deriving DecidableEq

/-- `piece.copy(deep='all')`: a fresh object; only the fact that the stored
piece was deep-copied matters downstream, so the copy is marked. -/
def PieceV.copyDeep (p : PieceV) : PieceV := { p with deepCopied := true }

/-- The range loop of `apply_frame_axis0`.  For range `i`: move the slider,
call `f` (any exception becomes `InvalidApply`, after `slider.reset()` via
the `finally`); compute `require_slow_apply = (i == 0 and piece is chunk)`;
if `piece.index is chunk.index` deep-copy the piece, else (when the piece
has an index at all) set `mutated = True`; append the piece; break after the
first range when `require_slow_apply`. -/
def apply_frame_axis0.loop (fr : FrameM) (f : Nat → Except Unit PieceV) :
    Nat → Nat → List PieceV → Bool → List AEvent →
    Except ApplyErr (List PieceV × Bool) × List AEvent
  | 0, _, acc, mutated, evs => (.ok (acc.reverse, mutated), evs ++ [AEvent.reset])
  | rem+1, i, acc, mutated, evs =>
    match f i with
    | .error _ => (.error .callbackRaised, evs ++ [AEvent.move i, AEvent.reset])
    | .ok piece =>
      let require_slow_apply := i == 0 && piece.oid == fr.chunkOid
      let pm : PieceV × Bool :=
        match piece.indexOid with
        | some k =>
          if k = fr.chunkIndexOid then (piece.copyDeep, mutated) else (piece, true)
        | Option.none => (piece, mutated)
      if require_slow_apply then
        (.ok ((pm.1 :: acc).reverse, pm.2), evs ++ [AEvent.move i, AEvent.reset])
      else
        apply_frame_axis0.loop fr f rem (i+1) (pm.1 :: acc) pm.2
          (evs ++ [AEvent.move i])

/-- `apply_frame_axis0(frame, f, names, starts, ends)` with `n = len(starts)`
ranges.  The callback is abstracted as `f i` (the window handed to it is a
function of the range index); the returned pair is `(results, mutated)`,
alongside the trace of buffer events. -/
def apply_frame_axis0 (fr : FrameM) (f : Nat → Except Unit PieceV) (n : Nat) :
    Except ApplyErr (List PieceV × Bool) × List AEvent :=
  if fr.hasComplexInternals then (.error .complexIndex, [])
  else apply_frame_axis0.loop fr f n 0 [] false [AEvent.sliderInit]

/-- `NPY_NAT`: the int64 not-a-time sentinel (`INT64_MIN`). -/
def NPY_NAT : Int := -9223372036854775808

/-- The three error policies accepted by the datetime converters. -/
inductive Errors where
  | raise
  | ignore
  | coerce
  deriving DecidableEq

/-- An entry of `out_tzoffset_vals`: either the marker added for an
offset-naive datetime string, or a UTC offset in seconds. -/
inductive TzMark where
  | naive
  | off (sec : Int)
  deriving DecidableEq

def TzMark.isOff : TzMark → Bool
  | .off _ => true
  | .naive => false

/-- Set-insertion into `out_tzoffset_vals` (a Python `set`). -/
def tzInsert (s : List TzMark) (m : TzMark) : List TzMark :=
  if m ∈ s then s else s ++ [m]

/-- One element of the object array handed to `array_to_datetime`, by the
category the per-element dispatch detects, carrying what the (external)
parsers and converters would produce for it:
`null` (NaT-like), `dtAware` (tz-aware `datetime.datetime`, with its UTC
nanosecond value), `dtNaive` (naive datetime/`Timestamp`; `inBounds` is the
`check_dts_bounds` outcome), `pydate`, `dt64` (`np.datetime64`, nanosecond
value from `get_datetime64_nanos`), `num` (int/float; `isNaN` covers
`val != val`, `fitsNs` whether `cast_from_unit(val, 'ns')` overflows),
`strNat` (empty or NaT string), `strISO` (a string the fixed ISO-8601 parser
accepts, with the parsed UTC offset in minutes, the wall-clock nanosecond
value, and the bounds-check outcome), `strNow` (`'now'`/`'today'`),
`strOther` (any other string: `none` when `parse_datetime_string` fails,
else the inferred UTC offset in seconds and the UTC nanosecond value), and
`other` (a non-convertible type). -/
inductive DtElem where
  | null
  | dtAware (utcNs : Int)
  | dtNaive (ns : Int) (inBounds : Bool)
  | pydate (ns : Int) (inBounds : Bool)
  | dt64 (ns : Int) (inBounds : Bool)
  | num (isNaN : Bool) (v : Int) (fitsNs : Bool)
  | strNat
  | strISO (offMin : Option Int) (wallNs : Int) (inBounds : Bool)
  | strNow (ns : Int)
  | strOther (parsed : Option (Option Int × Int))
  | other
  deriving DecidableEq

/-- The scan state of the `array_to_datetime` main loop. -/
structure A2DState where
  ires : List Int
  seen_integer : Bool
  seen_datetime : Bool
  seen_datetime_offset : Bool
  out_tzoffset_vals : List TzMark
  deriving DecidableEq

def a2dInit : A2DState :=
  { ires := [], seen_integer := false, seen_datetime := false,
    seen_datetime_offset := false, out_tzoffset_vals := [] }

/-- The possible outcomes of `array_to_datetime`: the int64 array with an
optional shared fixed offset (seconds; the source builds
`pytz.FixedOffset(tz_offset / 60.)` from it), the
`array_to_datetime_object` fallback, the `errors='ignore'` out-of-bounds
fallback, the literal `return values, tz_out` paths, or a propagated
`ValueError` / `OutOfBoundsDatetime`. -/
inductive A2DRes where
  | numeric (vals : List Int) (tzOffSec : Option Int)
  | objectFallback
  | ignoreOOBFallback
  | inputEchoed
  | raisesValueError
  | raisesOOB
  deriving DecidableEq

/-- The two nested `except OutOfBoundsDatetime` handlers of
`array_to_datetime`: `coerce` substitutes NaT and continues; with
`require_iso8601` and a string element, `raise` re-raises while `ignore`
returns the input; otherwise `raise` propagates and `ignore` falls back to
`ignore_errors_out_of_bounds_fallback`. -/
def oobExit (errors : Errors) (reqIso isStr : Bool)
    (st : A2DState) : Except A2DRes A2DState :=
  if errors = .coerce then .ok { st with ires := st.ires ++ [NPY_NAT] }
  else if reqIso && isStr then
    if errors = .raise then .error .raisesOOB
    else .error .inputEchoed
  else if errors = .raise then .error .raisesOOB
  else .error .ignoreOOBFallback

/-- One iteration of the `array_to_datetime` loop body, per the category
dispatch of the source. -/
def a2dStep (errors : Errors) (utc_convert reqIso : Bool) (val : DtElem)
    (st : A2DState) : Except A2DRes A2DState :=
  match val with
  | .null => .ok { st with ires := st.ires ++ [NPY_NAT] }
  | .dtAware utcNs =>
    if utc_convert then
      .ok { st with seen_datetime := true, ires := st.ires ++ [utcNs] }
    else .error .raisesValueError
  | .dtNaive ns inB =>
    if inB then .ok { st with seen_datetime := true, ires := st.ires ++ [ns] }
    else oobExit errors reqIso false { st with seen_datetime := true }
  | .pydate ns inB =>
    if inB then .ok { st with seen_datetime := true, ires := st.ires ++ [ns] }
    else oobExit errors reqIso false { st with seen_datetime := true }
  | .dt64 ns inB =>
    if inB then .ok { st with seen_datetime := true, ires := st.ires ++ [ns] }
    else oobExit errors reqIso false { st with seen_datetime := true }
  | .num isNaN v fitsNs =>
    if isNaN then
      .ok { st with seen_integer := true, ires := st.ires ++ [NPY_NAT] }
    else if errors = .raise ∨ errors = .ignore then
      .ok { st with seen_integer := true, ires := st.ires ++ [v] }
    else if fitsNs then
      .ok { st with seen_integer := true, ires := st.ires ++ [v] }
    else
      .ok { st with seen_integer := true, ires := st.ires ++ [NPY_NAT] }
  | .strNat => .ok { st with ires := st.ires ++ [NPY_NAT] }
  | .strISO offMin wallNs inB =>
    match offMin with
    | some o =>
      let st2 : A2DState :=
        { st with
          seen_datetime_offset := true,
          out_tzoffset_vals := tzInsert st.out_tzoffset_vals (.off (o * 60)) }
      if inB then .ok { st2 with ires := st2.ires ++ [wallNs - o * 60000000000] }
      else oobExit errors reqIso true st2
    | Option.none =>
      let st2 : A2DState :=
        { st with out_tzoffset_vals := tzInsert st.out_tzoffset_vals .naive }
      if inB then .ok { st2 with ires := st2.ires ++ [wallNs] }
      else oobExit errors reqIso true st2
  | .strNow ns => .ok { st with ires := st.ires ++ [ns] }
  | .strOther parsed =>
    if reqIso then
      if errors = .coerce then .ok { st with ires := st.ires ++ [NPY_NAT] }
      else if errors = .raise then .error .raisesValueError
      else .error .inputEchoed
    else
      match parsed with
      | Option.none =>
        if errors = .coerce then .ok { st with ires := st.ires ++ [NPY_NAT] }
        else .error .objectFallback
      | some (offSec, utcNs) =>
        match offSec with
        | some s =>
          .ok { st with
                seen_datetime_offset := true,
                out_tzoffset_vals := tzInsert st.out_tzoffset_vals (.off s),
                ires := st.ires ++ [utcNs] }
        | Option.none =>
          .ok { st with
                out_tzoffset_vals := tzInsert st.out_tzoffset_vals .naive,
                ires := st.ires ++ [utcNs] }
  | .other =>
    if errors = .coerce then .ok { st with ires := st.ires ++ [NPY_NAT] }
    else .error .objectFallback

/-- The main loop of `array_to_datetime`. -/
def a2dLoop (errors : Errors) (utc_convert reqIso : Bool) :
    List DtElem → A2DState → Except A2DRes A2DState
  | [], st => .ok st
  | v :: rest, st =>
    match a2dStep errors utc_convert reqIso v st with
    | .error e => .error e
    | .ok st2 => a2dLoop errors utc_convert reqIso rest st2

/-- `array_to_datetime(values, errors, dayfirst, yearfirst, utc,
require_iso8601)`: run the loop, then the two post-pass reconciliations —
mixed datetimes/integers (coerce nulls the integer-derived entries and
continues, raise propagates `ValueError`, ignore diverts to the object
fallback), then per-string UTC offsets when `utc` was not requested
(`len(out_tzoffset_vals) == 1` keeps the int64 array with the shared
`FixedOffset`; anything else — differing offsets or an offset/naive mix —
diverts the whole input to `array_to_datetime_object`). -/
def array_to_datetime (values : List DtElem) (errors : Errors)
    (utc_convert : Bool) (require_iso8601 : Bool) : A2DRes :=
  match a2dLoop errors utc_convert require_iso8601 values a2dInit with
  | .error e => e
  | .ok st =>
    let step2 : Except A2DRes (List Int) :=
      if st.seen_datetime && st.seen_integer then
        if errors = .coerce then
          .ok ((values.zip st.ires).map fun p =>
            match p.1 with
            | .num _ _ _ => NPY_NAT
            | _ => p.2)
        else if errors = .raise then .error .raisesValueError
        else .error .objectFallback
      else .ok st.ires
    match step2 with
    | .error e => e
    | .ok vals =>
      if st.seen_datetime_offset && !utc_convert then
        match st.out_tzoffset_vals with
        | [TzMark.off s] => .numeric vals (some s)
        | [TzMark.naive] => .numeric vals Option.none
        | _ => .objectFallback
      else .numeric vals Option.none

/-- The precision-selection scan at the top of `format_array_from_datetime`
on the basic path (`format is None and tz is None`): drop NaT entries, test
the sub-microsecond remainder, floor-divide by 1000 between stages.  The
inner guard is literally `if not show_ms` (with `show_ms` still 0 at that
point), exactly as in the source.  numpy `//` and `%` on int64 with a
positive divisor agree with Lean `Int` `/` and `%` (Euclidean). -/
def formatShowFlags (values : List Int) : Bool × Bool × Bool :=
  let consider0 := values.filter (fun v => v != NPY_NAT)
  let show_ms := false
  let show_ns := consider0.any (fun v => v % 1000 != 0)
  if !show_ns then
    let consider1 := consider0.map (fun v => v / 1000)
    let show_us := consider1.any (fun v => v % 1000 != 0)
    if !show_ms then
      let consider2 := consider1.map (fun v => v / 1000)
      let show_ms2 := consider2.any (fun v => v % 1000 != 0)
      (show_ns, show_us, show_ms2)
    else (show_ns, show_us, show_ms)
  else (show_ns, false, show_ms)

/-- Number of fractional digits rendered for a non-NaT element on the basic
path: the elif chain over `show_ns` (`'.%.9d'`), `show_us` (`'.%.6d'`),
`show_ms` (`'.%.3d'`, always exactly three digits since `dts.us / 1000 <
1000`), else none. -/
def basicFracDigits (values : List Int) : Nat :=
  let flags := formatShowFlags values
  if flags.1 then 9 else if flags.2.1 then 6 else if flags.2.2 then 3 else 0

/-- The basic path of `format_array_from_datetime` (no format, no tz),
abstracted to the fractional rendering the claim is about: each NaT renders
as `na_rep` (`none` here), every other value renders the
`'%d-%.2d-%.2d %.2d:%.2d:%.2d'` stem followed by exactly
`basicFracDigits values` fractional digits. -/
def format_array_from_datetime_basic (values : List Int) : List (Option Nat) :=
  values.map (fun v => if v == NPY_NAT then Option.none else some (basicFracDigits values))

/-- The units accepted by `array_with_unit_to_datetime`. -/
inductive TimeUnit where
  | ns
  | us
  | ms
  | s
  | minute
  | h
  | D
  deriving DecidableEq

/-- External `cast_from_unit(None, unit)`: the nanoseconds-per-unit
multiplier `m`. -/
def unitMultiplier : TimeUnit → Int
  | .ns => 1
  | .us => 1000
  | .ms => 1000000
  | .s => 1000000000
  | .minute => 60000000000
  | .h => 3600000000000
  | .D => 86400000000000

def TimestampMinValue : Int := -9223372036854775807
def TimestampMaxValue : Int := 9223372036854775807

/-- External `cast_from_unit(val, unit)` on an exact numeric value: the
scaled nanosecond count, or `none` for the `OverflowError` it raises when
the scaled value leaves the int64 range (float fractional parts are not
modelled; the claims never depend on them). -/
def castFromUnit (mlt v : Int) : Option Int :=
  if -(2^63) ≤ v * mlt ∧ v * mlt < 2^63 then some (v * mlt) else Option.none

/-- One element of the object view of the `array_with_unit_to_datetime`
input on its element-wise path: a NaT-like null, a number (`isNaN` covers
`val != val`), an empty/NaT string, a numeric string with its parsed value,
a non-numeric string (`float(val)` raises `ValueError`), or any other
object. -/
inductive UnitVal where
  | null
  | num (isNaN : Bool) (v : Int)
  | strNat
  | strNum (v : Int)
  | strBad
  | other
  deriving DecidableEq

/-- An entry of the fallback object array `oresult`: NaT, a `Timestamp`, the
original value passed through, or the untouched `np.empty` slot (elements of
kinds the fallback loop does not handle are simply never assigned). -/
inductive UnitObj where
  | nat
  | timestamp (ns : Int)
  | orig (v : UnitVal)
  | empty
  deriving DecidableEq

/-- The argument of `array_with_unit_to_datetime`: whether the dtype is an
integer dtype, the raw int64 view (meaningful on the integer fast paths),
the element-wise object view, and the `values.astype(object)` view consumed
by `array_to_datetime` on the `unit == 'ns'` non-integer branch. -/
structure UnitArr where
  isIntegerDtype : Bool
  intVals : List Int
  objVals : List UnitVal
  asObjects : List DtElem

/-- The outcomes of `array_with_unit_to_datetime`: an m8[ns] array (int64
view) with the `tz` slot (always `None` on these paths), the
`errors='ignore'` object fallback array, the delegated
`array_to_datetime` result for `unit == 'ns'` on non-integer input, or a
propagated `OutOfBoundsDatetime` / `ValueError`. -/
inductive AWUResult where
  | m8 (vals : List Int) (tz : Option Int)
  | objectArr (vals : List UnitObj) (tz : Option Int)
  | viaArrayToDatetime (r : A2DRes)
  | raisesOOB
  | raisesValueError
  deriving DecidableEq

/-- The element-wise `try` loop of `array_with_unit_to_datetime` (reached
when the `is_raise` integer fast path does not apply): build `iresult`
according to the error policy; in `ignore` mode any per-element failure
raises `AssertionError`, caught below to redo the whole array as objects. -/
def awuLoop (mlt : Int) (errors : Errors) :
    List UnitVal → List Int → Except AWUResult (List Int)
  | [], acc => .ok acc
  | v :: rest, acc =>
    match v with
    | .null => awuLoop mlt errors rest (acc ++ [NPY_NAT])
    | .num isNaN x =>
      if isNaN then awuLoop mlt errors rest (acc ++ [NPY_NAT])
      else
        match castFromUnit mlt x with
        | some r => awuLoop mlt errors rest (acc ++ [r])
        | Option.none =>
          if errors = .raise then .error .raisesOOB
          else if errors = .ignore then .error (.objectArr [] Option.none)
          else awuLoop mlt errors rest (acc ++ [NPY_NAT])
    | .strNat => awuLoop mlt errors rest (acc ++ [NPY_NAT])
    | .strNum x =>
      match castFromUnit mlt x with
      | some r => awuLoop mlt errors rest (acc ++ [r])
      | Option.none =>
        if errors = .raise then .error .raisesOOB
        else if errors = .ignore then .error (.objectArr [] Option.none)
        else awuLoop mlt errors rest (acc ++ [NPY_NAT])
    | .strBad =>
      if errors = .raise then .error .raisesValueError
      else if errors = .ignore then .error (.objectArr [] Option.none)
      else awuLoop mlt errors rest (acc ++ [NPY_NAT])
    | .other =>
      if errors = .raise then .error .raisesValueError
      else if errors = .ignore then .error (.objectArr [] Option.none)
      else awuLoop mlt errors rest (acc ++ [NPY_NAT])

/-- The `errors='ignore'` object redo pass (`oresult`) of
`array_with_unit_to_datetime`. -/
def awuObjectPass (mlt : Int) (vals : List UnitVal) : List UnitObj :=
  vals.map fun v =>
    match v with
    | .null => .nat
    | .num isNaN x =>
      if isNaN then .nat
      else
        match castFromUnit mlt x with
        | some r => .timestamp r
        | Option.none => .orig (.num isNaN x)
    | .strNat => .nat
    | .strNum x => .orig (.strNum x)
    | .strBad => .orig .strBad
    | .other => .empty

/-- `array_with_unit_to_datetime(values, unit, errors)`.  With
`unit == 'ns'` and an integer dtype it returns `values.astype('M8[ns]')`
and `tz = None` immediately — no bounds check of any kind; with
`unit == 'ns'` and any other dtype it delegates to
`array_to_datetime(values.astype(object), errors=errors)`.  Otherwise: the
`is_raise` integer fast path (scaled cast with a `Timestamp.min/max` bounds
check, NaT preserved through the mask), else the element-wise loop, whose
`AssertionError` escape in `ignore` mode redoes the array as objects. -/
def array_with_unit_to_datetime (values : UnitArr) (unit : TimeUnit)
    (errors : Errors) : AWUResult :=
  if unit = .ns then
    if values.isIntegerDtype then .m8 values.intVals Option.none
    else .viaArrayToDatetime (array_to_datetime values.asObjects errors false false)
  else
    let mlt := unitMultiplier unit
    if errors = .raise ∧ values.isIntegerDtype then
      let masked := values.intVals.map (fun v => if v == NPY_NAT then 0 else v)
      if masked.any (fun v =>
          decide (v * mlt < TimestampMinValue) || decide (TimestampMaxValue < v * mlt)) then
        .raisesOOB
      else
        .m8 (values.intVals.map (fun v => if v == NPY_NAT then NPY_NAT else v * mlt))
          Option.none
    else
      match awuLoop mlt errors values.objVals [] with
      | .ok vals => .m8 vals Option.none
      | .error (.objectArr _ _) => .objectArr (awuObjectPass mlt values.objVals) Option.none
      | .error e => e

theorem Reducer.loop_preserves_len_stride (r : Reducer)
    (f : Nat → PyVal → Except Unit PyVal) :
    ∀ (rem i : Nat) (chunk : NDBuf) (result : Option (List PyVal)),
      (Reducer.loop r f rem i chunk result).2.len = chunk.len ∧
      (Reducer.loop r f rem i chunk result).2.stride = chunk.stride := by
  intro rem
  induction rem with
  | zero =>
    intro i chunk result
    cases result <;> simp [Reducer.loop]
  | succ m ih =>
    intro i chunk result
    cases hf : f i r.fInput with
    | error e => simp [Reducer.loop, hf]
    | ok res0 =>
      cases result with
      | none =>
        by_cases hg : get_result_array_raises (unwrapValues res0) r.chunksize
        · simp [Reducer.loop, hf, hg]
        · simpa [Reducer.loop, hf, hg] using
            ih (i+1) { chunk with data := chunk.data + r.increment } (some [unwrapValues res0])
      | some rs =>
        simpa [Reducer.loop, hf] using
          ih (i+1) { chunk with data := chunk.data + r.increment }
            (some (rs ++ [unwrapValues res0]))

/-- The `finally` of `Reducer.get_result` restores the dummy chunk header
exactly: whatever `f` did, the returned header equals the original. -/
theorem reducer_get_result_restores (r : Reducer)
    (f : Nat → PyVal → Except Unit PyVal) :
    (Reducer.get_result r f).2 = r.chunkBuf := by
  have h := Reducer.loop_preserves_len_stride r f r.nresults 0
    { r.chunkBuf with data := r.arrData } Option.none
  unfold Reducer.get_result
  cases hout : (Reducer.loop r f r.nresults 0
      { r.chunkBuf with data := r.arrData } Option.none).1 <;>
    simp_all

theorem sum_range_map_sub (h : Nat → Int) :
    ∀ m, ((List.range m).map (fun i => h (i+1) - h i)).sum = h m - h 0 := by
  intro m
  induction m with
  | zero => simp
  | succ k ih =>
    rw [List.range_succ, List.map_append, List.sum_append, ih]
    simp

theorem SeriesBinGrouper.ngroups_pos (bins : List Nat) (n : Nat) :
    1 ≤ SeriesBinGrouper.ngroups bins n := by
  unfold SeriesBinGrouper.ngroups
  by_cases h : 0 < bins.length ∧ bins.getLast? = some n
  · rw [if_pos h]
    exact h.1
  · rw [if_neg h]
    omega

theorem SeriesBinGrouper.counts_sum (b0 : Nat) (rest : List Nat) (n b : Nat)
    (hl : (b0 :: rest).getLast? = some b) (cnts : List Int)
    (hc : SeriesBinGrouper.counts (b0 :: rest) n = some cnts) :
    cnts.sum = (n : Int) := by
  have hg1 : 1 ≤ SeriesBinGrouper.ngroups (b0 :: rest) n :=
    SeriesBinGrouper.ngroups_pos _ n
  obtain ⟨m, hm⟩ : ∃ m, SeriesBinGrouper.ngroups (b0 :: rest) n = m + 1 :=
    ⟨SeriesBinGrouper.ngroups (b0 :: rest) n - 1, by omega⟩
  set H : Nat → Int :=
    fun j => if j = 0 then (0 : Int) else (((b0 :: rest).getD (j-1) 0 : Nat) : Int) with hH
  simp only [SeriesBinGrouper.counts, hm, Nat.add_sub_cancel] at hc
  obtain rfl :
      (List.range (m+1)).map (fun i =>
        if i = 0 then ((b0 : Nat) : Int)
        else if i = m then (n : Int) - (((b0 :: rest).getD (i-1) 0 : Nat) : Int)
        else (((b0 :: rest).getD i 0 : Nat) : Int) -
          (((b0 :: rest).getD (i-1) 0 : Nat) : Int)) = cnts := by
    simpa using hc
  rw [List.range_succ, List.map_append, List.sum_append]
  have hmid : (List.range m).map (fun i =>
      if i = 0 then ((b0 : Nat) : Int)
      else if i = m then (n : Int) - (((b0 :: rest).getD (i-1) 0 : Nat) : Int)
      else (((b0 :: rest).getD i 0 : Nat) : Int) -
        (((b0 :: rest).getD (i-1) 0 : Nat) : Int)) =
      (List.range m).map (fun i => H (i+1) - H i) := by
    apply List.map_congr_left
    intro i hi
    have him : i < m := List.mem_range.mp hi
    by_cases h0 : i = 0
    · subst h0
      simp [hH]
    · have hlast : i ≠ m := by omega
      have h1 : i + 1 ≠ 0 := by omega
      simp only [hH, if_neg h0, if_neg hlast, if_neg h1, Nat.add_sub_cancel]
  rw [hmid, sum_range_map_sub H m]
  have hH0 : H 0 = 0 := by simp [hH]
  by_cases hm0 : m = 0
  · subst hm0
    -- a single group: ngroups = 1 forces bins = [b0] with b0 = n
    have hng : SeriesBinGrouper.ngroups (b0 :: rest) n = 1 := by omega
    unfold SeriesBinGrouper.ngroups at hng
    have hrest : rest = [] := by
      by_cases hcond : 0 < (b0 :: rest).length ∧ (b0 :: rest).getLast? = some n
      · rw [if_pos hcond] at hng
        simpa using List.length_eq_zero.mp (by simpa using hng)
      · rw [if_neg hcond] at hng
        simp at hng
    subst hrest
    have hb0 : b0 = b := by simpa using hl
    have hbn : b = n := by
      by_cases hcond : 0 < ([b0] : List Nat).length ∧ ([b0] : List Nat).getLast? = some n
      · simpa [hb0] using hcond.2
      · rw [SeriesBinGrouper.ngroups, if_neg hcond] at hm
        simp at hm
    simp [hH0, hb0, hbn]
  · have hHm : H m = (((b0 :: rest).getD (m-1) 0 : Nat) : Int) := by
      simp [hH, hm0]
    have hsum2 : (List.map (fun i =>
        if i = 0 then ((b0 : Nat) : Int)
        else if i = m then (n : Int) - (((b0 :: rest).getD (i-1) 0 : Nat) : Int)
        else (((b0 :: rest).getD i 0 : Nat) : Int) -
          (((b0 :: rest).getD (i-1) 0 : Nat) : Int)) [m]).sum =
        (n : Int) - (((b0 :: rest).getD (m-1) 0 : Nat) : Int) := by
      simp [hm0]
    rw [hsum2, hHm, hH0]
    omega

theorem Slider.reset_set_length (s : Slider) (l : Int) :
    (s.set_length l).reset = s.reset := rfl

theorem Slider.reset_advance (s : Slider) (k : Int) :
    (s.advance k).reset = s.reset := rfl

theorem Slider.reset_init_buf (values buf : NDBuf) :
    (Slider.init values buf).reset.buf = buf := rfl

theorem sbg_loop_reset (f : Nat → Except Unit PyVal) (ng dl : Nat) :
    ∀ (cs : List Int) (i : Nat) (st : SBGState),
      (SeriesBinGrouper.loop f ng dl cs i st).2.islider.reset = st.islider.reset ∧
      (SeriesBinGrouper.loop f ng dl cs i st).2.vslider.reset = st.vslider.reset := by
  intro cs
  induction cs with
  | nil =>
    intro i st
    simp [SeriesBinGrouper.loop]
  | cons gs rest ih =>
    intro i st
    simp only [SeriesBinGrouper.loop]
    cases hf : f i with
    | error e => simp [Slider.reset_set_length]
    | ok res0 =>
      cases hres : st.result with
      | none =>
        by_cases hg : get_result_array_raises (_extract_result res0) dl
        · simp [hg, Slider.reset_set_length]
        · simpa [hg, Slider.reset_set_length, Slider.reset_advance] using
            ih (i+1)
              { islider := (st.islider.set_length gs).advance gs,
                vslider := (st.vslider.set_length gs).advance gs,
                result := some ((List.replicate ng PyVal.none).set i (_extract_result res0)) }
      | some rs =>
        simpa [Slider.reset_set_length, Slider.reset_advance] using
          ih (i+1)
            { islider := (st.islider.set_length gs).advance gs,
              vslider := (st.vslider.set_length gs).advance gs,
              result := some (rs.set i (_extract_result res0)) }

/-- The `finally` of `SeriesBinGrouper.get_result` restores both dummy
buffers on every exit path. -/
theorem sbg_get_result_restores (g : SeriesBinGrouper)
    (f : Nat → Except Unit PyVal) :
    (SeriesBinGrouper.get_result g f).2 = (g.dummy_arr, g.dummy_index) := by
  unfold SeriesBinGrouper.get_result
  cases hc : SeriesBinGrouper.counts g.bins g.n with
  | none => simp
  | some counts =>
    have h := sbg_loop_reset f (SeriesBinGrouper.ngroups g.bins g.n)
      g.dummyLen counts 0
      { islider := Slider.init g.indexBuf g.dummy_index,
        vslider := Slider.init g.arrBuf g.dummy_arr,
        result := Option.none }
    cases hout : (SeriesBinGrouper.loop f (SeriesBinGrouper.ngroups g.bins g.n)
        g.dummyLen counts 0
        { islider := Slider.init g.indexBuf g.dummy_index,
          vslider := Slider.init g.arrBuf g.dummy_arr,
          result := Option.none }).1 with
    | none =>
      cases hres : (SeriesBinGrouper.loop f (SeriesBinGrouper.ngroups g.bins g.n)
          g.dummyLen counts 0
          { islider := Slider.init g.indexBuf g.dummy_index,
            vslider := Slider.init g.arrBuf g.dummy_arr,
            result := Option.none }).2.result with
      | none => simp_all [Slider.reset_init_buf]
      | some rs => simp_all [Slider.reset_init_buf]
    | some e => simp_all [Slider.reset_init_buf]

theorem SeriesBinGrouper.counts_head (b0 : Nat) (rest : List Nat) (n : Nat)
    (cnts : List Int)
    (hc : SeriesBinGrouper.counts (b0 :: rest) n = some cnts) :
    cnts.head? = some ((b0 : Nat) : Int) := by
  have hg1 : 1 ≤ SeriesBinGrouper.ngroups (b0 :: rest) n :=
    SeriesBinGrouper.ngroups_pos _ n
  obtain ⟨m, hm⟩ : ∃ m, SeriesBinGrouper.ngroups (b0 :: rest) n = m + 1 :=
    ⟨SeriesBinGrouper.ngroups (b0 :: rest) n - 1, by omega⟩
  simp only [SeriesBinGrouper.counts, hm] at hc
  obtain rfl := (Option.some_inj.mp hc).symm
  rw [List.range_succ_eq_map]
  simp

theorem list_sum_set : ∀ (c : List Int) (i : Nat) (v : Int), i < c.length →
    (c.set i v).sum = c.sum - c.getD i 0 + v := by
  intro c
  induction c with
  | nil =>
    intro i v h
    simp at h
  | cons a l ih =>
    intro i v h
    cases i with
    | zero =>
      simp
      omega
    | succ j =>
      have hj : j < l.length := by simpa using h
      simp only [List.set_cons_succ, List.sum_cons, List.getD_cons_succ]
      rw [ih j v hj]
      omega

theorem list_getD_set_ne (c : List Int) (i j : Nat) (v : Int) (h : i ≠ j) :
    (c.set i v).getD j 0 = c.getD j 0 := by
  simp [List.getD_eq_getElem?_getD, List.getElem?_set_ne h]

theorem runs_cons (l : Int) (rest : List Int) :
    runs (l :: rest) =
      match runs rest with
      | [] => [(l, 1)]
      | (l2, sz) :: rs =>
        if l = l2 then (l2, sz + 1) :: rs else (l, 1) :: (l2, sz) :: rs := rfl

theorem countsFold_cons (lab : Int) (rest : List Int) (gs : Nat) (c : List Int) :
    countsFold (lab :: rest) gs c =
      if rest.head? = some lab then countsFold rest (gs + 1) c
      else if lab = -1 then countsFold rest 0 c
      else countsFold rest 0 (c.set lab.toNat ((gs + 1 : Nat) : Int)) := rfl

theorem countsFold_runs :
    ∀ (rest : List Int) (l : Int) (gs : Nat) (c : List Int),
      ∃ k rs2, runs (l :: rest) = (l, k) :: rs2 ∧
        countsFold (l :: rest) gs c = runsFold ((l, gs + k) :: rs2) c := by
  intro rest
  induction rest with
  | nil =>
    intro l gs c
    refine ⟨1, [], by simp [runs], ?_⟩
    by_cases hl : l = -1 <;> simp [countsFold, runsFold, hl]
  | cons l2 rest2 ih =>
    intro l gs c
    by_cases hll : l = l2
    · subst hll
      obtain ⟨k2, rs2, hr, hcf⟩ := ih l (gs+1) c
      refine ⟨k2 + 1, rs2, ?_, ?_⟩
      · rw [runs_cons, hr]
        simp
      · rw [countsFold_cons, if_pos (by simp), hcf]
        have hkk : gs + 1 + k2 = gs + (k2 + 1) := by omega
        rw [hkk]
    · have hcond : ¬ ((l2 :: rest2).head? = some l) := by
        simp only [List.head?_cons, Option.some.injEq]
        exact fun h => hll h.symm
      by_cases hl : l = -1
      · obtain ⟨k2, rs2, hr, hcf⟩ := ih l2 0 c
        refine ⟨1, (l2, k2) :: rs2, ?_, ?_⟩
        · rw [runs_cons, hr]
          simp [hll]
        · rw [countsFold_cons, if_neg hcond, if_pos hl, hcf]
          simp [runsFold, hl]
      · obtain ⟨k2, rs2, hr, hcf⟩ :=
          ih l2 0 (c.set l.toNat ((gs + 1 : Nat) : Int))
        refine ⟨1, (l2, k2) :: rs2, ?_, ?_⟩
        · rw [runs_cons, hr]
          simp [hll]
        · rw [countsFold_cons, if_neg hcond, if_neg hl, hcf]
          simp [runsFold, hl]

theorem countsFold_eq_runsFold (labels : List Int) (c : List Int) :
    countsFold labels 0 c = runsFold (runs labels) c := by
  cases labels with
  | nil => rfl
  | cons l rest =>
    obtain ⟨k, rs2, hr, hcf⟩ := countsFold_runs rest l 0 c
    rw [hcf, hr]
    simp

theorem runsFold_sum :
    ∀ (rs : List (Int × Nat)) (c : List Int),
      (∀ p ∈ rs, p.1 ≠ -1 → 0 ≤ p.1 ∧ p.1.toNat < c.length ∧ c.getD p.1.toNat 0 = 0) →
      List.Pairwise (fun p q : Int × Nat => p.1 = -1 ∨ p.1 ≠ q.1) rs →
      (runsFold rs c).sum = c.sum + runSizesSum rs := by
  intro rs
  induction rs with
  | nil =>
    intro c hval hpw
    simp [runsFold, runSizesSum]
  | cons p rest ih =>
    intro c hval hpw
    rw [List.pairwise_cons] at hpw
    by_cases hp : p.1 = -1
    · have hstep : runsFold (p :: rest) c = runsFold rest c := by
        simp [runsFold, hp]
      rw [hstep, ih c (fun q hq => hval q (List.mem_cons_of_mem _ hq)) hpw.2]
      simp [runSizesSum, hp]
    · obtain ⟨hge, hlt, hzero⟩ := hval p (List.mem_cons_self _ _) hp
      have hstep : runsFold (p :: rest) c =
          runsFold rest (c.set p.1.toNat (p.2 : Int)) := by
        simp [runsFold, hp]
      have hval2 : ∀ q ∈ rest, q.1 ≠ -1 →
          0 ≤ q.1 ∧ q.1.toNat < (c.set p.1.toNat (p.2 : Int)).length ∧
            (c.set p.1.toNat (p.2 : Int)).getD q.1.toNat 0 = 0 := by
        intro q hq hqne
        obtain ⟨hg, hl, hz⟩ := hval q (List.mem_cons_of_mem _ hq) hqne
        have hne : p.1.toNat ≠ q.1.toNat := by
          rcases hpw.1 q hq with h | h
          · exact absurd h hp
          · omega
        exact ⟨hg, by simpa using hl, by rw [list_getD_set_ne _ _ _ _ hne]; exact hz⟩
      rw [hstep, ih _ hval2 hpw.2]
      rw [list_sum_set c _ _ hlt, hzero]
      simp [runSizesSum, hp]
      omega

theorem runs_ne_nil (l : Int) (rest : List Int) : runs (l :: rest) ≠ [] := by
  rw [runs_cons]
  cases runs rest with
  | nil => simp
  | cons q rs =>
    obtain ⟨l2, sz⟩ := q
    by_cases h : l = l2 <;> simp [h]

theorem runs_fst_mem :
    ∀ (labels : List Int) (p : Int × Nat), p ∈ runs labels → p.1 ∈ labels := by
  intro labels
  induction labels with
  | nil =>
    intro p hp
    simp [runs] at hp
  | cons l rest ih =>
    intro p hp
    cases hr : runs rest with
    | nil =>
      have hcons : runs (l :: rest) = [(l, 1)] := by rw [runs_cons, hr]
      rw [hcons] at hp
      simp at hp
      simp [hp]
    | cons q rs =>
      obtain ⟨l2, sz⟩ := q
      have hcons : runs (l :: rest) =
          if l = l2 then (l2, sz + 1) :: rs else (l, 1) :: (l2, sz) :: rs := by
        rw [runs_cons, hr]
      rw [hcons] at hp
      by_cases hlq : l = l2
      · rw [if_pos hlq] at hp
        rcases List.mem_cons.mp hp with h | h
        · subst h
          simp [hlq]
        · right
          exact ih p (by rw [hr]; exact List.mem_cons_of_mem _ h)
      · rw [if_neg hlq] at hp
        rcases List.mem_cons.mp hp with h | h
        · subst h
          simp
        · right
          exact ih p (by rw [hr]; exact h)

theorem runSizesSum_eq (labels : List Int) :
    runSizesSum (runs labels) = ((labels.filter (fun l => l != -1)).length : Int) := by
  induction labels with
  | nil => simp [runs, runSizesSum]
  | cons l rest ih =>
    cases hr : runs rest with
    | nil =>
      have hrest : rest = [] := by
        cases rest with
        | nil => rfl
        | cons a t => exact absurd hr (runs_ne_nil a t)
      subst hrest
      have hcons : runs [l] = [(l, 1)] := by rw [runs_cons, hr]
      rw [hcons]
      by_cases hl : l = -1 <;> simp [runSizesSum, List.filter_cons, hl]
    | cons q rs =>
      obtain ⟨l2, sz⟩ := q
      have hcons : runs (l :: rest) =
          if l = l2 then (l2, sz + 1) :: rs else (l, 1) :: (l2, sz) :: rs := by
        rw [runs_cons, hr]
      rw [hcons]
      rw [hr] at ih
      by_cases hlq : l = l2
      · rw [if_pos hlq]
        subst hlq
        by_cases hl : l = -1
        · simp only [runSizesSum, List.map_cons, List.sum_cons, if_pos hl] at ih ⊢
          rw [List.filter_cons]
          have hb : (l != -1) = false := by simp [hl]
          rw [hb]
          simp only [Bool.false_eq_true, if_neg, not_false_eq_true]
          omega
        · simp only [runSizesSum, List.map_cons, List.sum_cons, if_neg hl] at ih ⊢
          rw [List.filter_cons]
          have hb : (l != -1) = true := by simpa using hl
          rw [hb]
          simp only [if_pos, List.length_cons]
          push_cast at ih ⊢
          omega
      · rw [if_neg hlq]
        by_cases hl : l = -1
        · simp only [runSizesSum, List.map_cons, List.sum_cons, if_pos hl]
          rw [List.filter_cons]
          have hb : (l != -1) = false := by simp [hl]
          rw [hb]
          simp only [Bool.false_eq_true, if_neg, not_false_eq_true]
          simp only [runSizesSum, List.map_cons, List.sum_cons] at ih
          omega
        · simp only [runSizesSum, List.map_cons, List.sum_cons, if_neg hl]
          rw [List.filter_cons]
          have hb : (l != -1) = true := by simpa using hl
          rw [hb]
          simp only [if_pos, List.length_cons]
          simp only [runSizesSum, List.map_cons, List.sum_cons] at ih
          push_cast at ih ⊢
          omega

theorem filter_length_split (labels : List Int) :
    (labels.filter (fun l => l != -1)).length +
      (labels.filter (fun l => l == -1)).length = labels.length := by
  induction labels with
  | nil => rfl
  | cons l rest ih =>
    by_cases h : l = -1 <;> simp [List.filter_cons, h] <;> omega

theorem SeriesGrouper.loop_counts (f : Nat → Except Unit PyVal) (ng dl : Nat) :
    ∀ (labels : List Int) (st : SGState),
      (SeriesGrouper.loop f ng dl labels st).1 = Option.none →
      (SeriesGrouper.loop f ng dl labels st).2.counts =
        countsFold labels st.group_size st.counts := by
  intro labels
  induction labels with
  | nil =>
    intro st h
    simp [SeriesGrouper.loop, countsFold]
  | cons lab rest ih =>
    intro st h
    rw [countsFold_cons]
    simp only [SeriesGrouper.loop] at h ⊢
    by_cases hh : rest.head? = some lab
    · simp only [if_pos hh] at h ⊢
      rw [ih _ h]
    · simp only [if_neg hh] at h ⊢
      by_cases hm1 : lab = -1
      · simp only [if_pos hm1] at h ⊢
        rw [ih _ h]
      · simp only [if_neg hm1] at h ⊢
        cases hf : f st.pos with
        | error e =>
          simp only [hf] at h
          simp at h
        | ok res0 =>
          simp only [hf] at h ⊢
          cases hres : st.result with
          | none =>
            simp only [hres] at h ⊢
            by_cases hg : get_result_array_raises (_extract_result res0) dl
            · simp only [if_pos hg] at h
              simp at h
            · simp only [if_neg hg] at h ⊢
              rw [ih _ h]
          | some rs =>
            simp only [hres] at h ⊢
            rw [ih _ h]

theorem sg_loop_reset (f : Nat → Except Unit PyVal) (ng dl : Nat) :
    ∀ (labels : List Int) (st : SGState),
      (SeriesGrouper.loop f ng dl labels st).2.islider.reset = st.islider.reset ∧
      (SeriesGrouper.loop f ng dl labels st).2.vslider.reset = st.vslider.reset := by
  intro labels
  induction labels with
  | nil =>
    intro st
    simp [SeriesGrouper.loop]
  | cons lab rest ih =>
    intro st
    simp only [SeriesGrouper.loop]
    by_cases hh : rest.head? = some lab
    · simp only [if_pos hh]
      exact ih _
    · simp only [if_neg hh]
      by_cases hm1 : lab = -1
      · simp only [if_pos hm1]
        simpa [Slider.reset_advance] using ih
          { st with islider := st.islider.advance ((st.group_size + 1 : Nat) : Int),
                    vslider := st.vslider.advance ((st.group_size + 1 : Nat) : Int),
                    group_size := 0, pos := st.pos + 1 }
      · simp only [if_neg hm1]
        cases hf : f st.pos with
        | error e =>
          simp only [hf]
          simp [Slider.reset_set_length]
        | ok res0 =>
          simp only [hf]
          cases hres : st.result with
          | none =>
            simp only [hres]
            by_cases hg : get_result_array_raises (_extract_result res0) dl
            · simp [hg, Slider.reset_set_length]
            · simp only [if_neg hg]
              simpa [Slider.reset_set_length, Slider.reset_advance] using
                ih { st with
                  result := some ((List.replicate ng PyVal.none).set lab.toNat
                    (_extract_result res0)),
                  counts := st.counts.set lab.toNat ((st.group_size + 1 : Nat) : Int),
                  islider := ((st.islider.set_length ((st.group_size + 1 : Nat) : Int)).advance
                    ((st.group_size + 1 : Nat) : Int)),
                  vslider := ((st.vslider.set_length ((st.group_size + 1 : Nat) : Int)).advance
                    ((st.group_size + 1 : Nat) : Int)),
                  group_size := 0, pos := st.pos + 1 }
          | some rs =>
            simp only [hres]
            simpa [Slider.reset_set_length, Slider.reset_advance] using
              ih { st with
                result := some (rs.set lab.toNat (_extract_result res0)),
                counts := st.counts.set lab.toNat ((st.group_size + 1 : Nat) : Int),
                islider := ((st.islider.set_length ((st.group_size + 1 : Nat) : Int)).advance
                  ((st.group_size + 1 : Nat) : Int)),
                vslider := ((st.vslider.set_length ((st.group_size + 1 : Nat) : Int)).advance
                  ((st.group_size + 1 : Nat) : Int)),
                group_size := 0, pos := st.pos + 1 }

/-- The `finally` of `SeriesGrouper.get_result` restores both dummy buffers
on every exit path. -/
theorem sg_get_result_restores (g : SeriesGrouper)
    (f : Nat → Except Unit PyVal) :
    (SeriesGrouper.get_result g f).2 = (g.dummy_arr, g.dummy_index) := by
  unfold SeriesGrouper.get_result
  have h := sg_loop_reset f g.ngroups g.dummyLen g.labels
    { islider := Slider.init g.indexBuf g.dummy_index,
      vslider := Slider.init g.arrBuf g.dummy_arr,
      counts := List.replicate g.ngroups 0, result := Option.none,
      group_size := 0, pos := 0 }
  cases hout : (SeriesGrouper.loop f g.ngroups g.dummyLen g.labels
      { islider := Slider.init g.indexBuf g.dummy_index,
        vslider := Slider.init g.arrBuf g.dummy_arr,
        counts := List.replicate g.ngroups 0, result := Option.none,
        group_size := 0, pos := 0 }).1 with
  | none =>
    cases hres : (SeriesGrouper.loop f g.ngroups g.dummyLen g.labels
        { islider := Slider.init g.indexBuf g.dummy_index,
          vslider := Slider.init g.arrBuf g.dummy_arr,
          counts := List.replicate g.ngroups 0, result := Option.none,
          group_size := 0, pos := 0 }).2.result with
    | none => simp_all [Slider.reset_init_buf]
    | some rs => simp_all [Slider.reset_init_buf]
  | some e => simp_all [Slider.reset_init_buf]

theorem SeriesBinGrouper.counts_length (b0 : Nat) (rest : List Nat) (n b : Nat)
    (hl : (b0 :: rest).getLast? = some b) (cnts : List Int)
    (hc : SeriesBinGrouper.counts (b0 :: rest) n = some cnts) :
    cnts.length = (if b = n then (b0 :: rest).length else (b0 :: rest).length + 1) := by
  simp only [SeriesBinGrouper.counts] at hc
  obtain rfl := (Option.some_inj.mp hc).symm
  simp only [List.length_map, List.length_range]
  unfold SeriesBinGrouper.ngroups
  rw [hl]
  simp

theorem apply_frame_axis0.loop_no_complex (fr : FrameM) (f : Nat → Except Unit PieceV) :
    ∀ (rem i : Nat) (acc : List PieceV) (mutated : Bool) (evs : List AEvent),
      (apply_frame_axis0.loop fr f rem i acc mutated evs).1 ≠
        Except.error ApplyErr.complexIndex := by
  intro rem
  induction rem with
  | zero =>
    intro i acc mutated evs
    simp [apply_frame_axis0.loop]
  | succ m ih =>
    intro i acc mutated evs
    cases hf : f i with
    | error e => simp [apply_frame_axis0.loop, hf]
    | ok piece =>
      cases hidx : piece.indexOid with
      | none =>
        by_cases hrs : (i == 0 && piece.oid == fr.chunkOid) = true <;>
          simp [apply_frame_axis0.loop, hf, hidx, hrs, ih]
      | some k =>
        by_cases hk : k = fr.chunkIndexOid <;>
          by_cases hrs : (i == 0 && piece.oid == fr.chunkOid) = true <;>
            simp [apply_frame_axis0.loop, hf, hidx, hk, hrs, ih]

theorem apply_frame_axis0.loop_mutated_mono (fr : FrameM) (f : Nat → Except Unit PieceV) :
    ∀ (rem i : Nat) (acc : List PieceV) (evs : List AEvent) (res : List PieceV)
      (mtd : Bool),
      (apply_frame_axis0.loop fr f rem i acc true evs).1 = Except.ok (res, mtd) →
      mtd = true := by
  intro rem
  induction rem with
  | zero =>
    intro i acc evs res mtd h
    simp [apply_frame_axis0.loop] at h
    exact h.2
  | succ m ih =>
    intro i acc evs res mtd h
    cases hf : f i with
    | error e => simp [apply_frame_axis0.loop, hf] at h
    | ok piece =>
      cases hidx : piece.indexOid with
      | none =>
        by_cases hrs : (i == 0 && piece.oid == fr.chunkOid) = true
        · simp [apply_frame_axis0.loop, hf, hidx, hrs] at h
          exact h.2
        · simp only [apply_frame_axis0.loop, hf, hidx, hrs] at h
          simp at h
          exact ih _ _ _ _ _ h
      | some k =>
        by_cases hk : k = fr.chunkIndexOid <;>
          by_cases hrs : (i == 0 && piece.oid == fr.chunkOid) = true
        · simp [apply_frame_axis0.loop, hf, hidx, hk, hrs] at h
          exact h.2
        · simp only [apply_frame_axis0.loop, hf, hidx, hk, hrs] at h
          simp [hk] at h
          exact ih _ _ _ _ _ h
        · simp [apply_frame_axis0.loop, hf, hidx, hk, hrs] at h
          exact h.2
        · simp only [apply_frame_axis0.loop, hf, hidx, hk, hrs] at h
          simp [hk] at h
          exact ih _ _ _ _ _ h

/-- C1 (amended): in `apply_frame_axis0`, if every processed range's piece
has an index object whose identity differs from the index of the window it
received, the returned `mutated` flag is True (the code sets
`mutated = True` exactly on the differing-identity branch), not False as the
spec claims. -/
theorem claim_C1_mutated_flag (fr : FrameM) (f : Nat → Except Unit PieceV) (n : Nat)
    (res : List PieceV) (mtd : Bool)
    (hcx : fr.hasComplexInternals = false)
    (hn : 1 ≤ n)
    (hf : ∀ i < n, ∃ p k, f i = Except.ok p ∧ p.indexOid = some k ∧ k ≠ fr.chunkIndexOid)
    (hok : (apply_frame_axis0 fr f n).1 = Except.ok (res, mtd)) :
    mtd = true := by
  obtain ⟨m, hm⟩ : ∃ m, n = m + 1 := ⟨n - 1, by omega⟩
  subst hm
  unfold apply_frame_axis0 at hok
  simp only [hcx, Bool.false_eq_true, if_false] at hok
  obtain ⟨p, k, hfp, hpi, hpk⟩ := hf 0 (by omega)
  simp only [apply_frame_axis0.loop, hfp, hpi] at hok
  rw [if_neg hpk] at hok
  by_cases hrs : (0 == 0 && p.oid == fr.chunkOid) = true
  · simp only [hrs, if_true] at hok
    simp at hok
    exact hok.2
  · simp only [hrs, Bool.false_eq_true, if_false] at hok
    exact apply_frame_axis0.loop_mutated_mono fr f m 1 [p] _ res mtd hok

/-- C1 counterexample: a single range whose piece carries a different index
identity (99) than the window's index (10).  The claim as stated says the
returned `mutated` flag is False; the code returns True. -/
theorem claim_C1_counterexample :
    (99 : Nat) ≠ 10 ∧
    (apply_frame_axis0 ⟨false, 0, 10⟩
        (fun _ => Except.ok ⟨1, some 99, false⟩) 1).1 =
      Except.ok ([(⟨1, some 99, false⟩ : PieceV)], true) :=
  ⟨by decide, rfl⟩

theorem claim_C1_witness :
    (apply_frame_axis0 ⟨false, 0, 10⟩
        (fun _ => Except.ok ⟨1, some 99, false⟩) 2).1 =
      Except.ok ([(⟨1, some 99, false⟩ : PieceV), ⟨1, some 99, false⟩], true) ∧
    true = true :=
  ⟨rfl, claim_C1_mutated_flag ⟨false, 0, 10⟩
    (fun _ => Except.ok ⟨1, some 99, false⟩) 2 [⟨1, some 99, false⟩, ⟨1, some 99, false⟩]
    true rfl (by omega)
    (fun i hi => ⟨⟨1, some 99, false⟩, 99, rfl, rfl, by decide⟩) rfl⟩

/-- C7: if on the very first range the callback returns the exact window
object (`piece is chunk`), exactly one range is processed — the results
list has length 1 even when more ranges were requested — and the slow-path
condition is reported to the caller as the truncated results list (the
`require_slow_apply` break). -/
theorem claim_C7_same_object_short_circuits (fr : FrameM)
    (f : Nat → Except Unit PieceV) (n : Nat)
    (hcx : fr.hasComplexInternals = false) (hn : 1 ≤ n)
    (hf : f 0 = Except.ok fr.chunk) :
    (apply_frame_axis0 fr f n).1 = Except.ok ([fr.chunk.copyDeep], false) ∧
      ([fr.chunk.copyDeep] : List PieceV).length = 1 := by
  obtain ⟨m, hm⟩ : ∃ m, n = m + 1 := ⟨n - 1, by omega⟩
  subst hm
  unfold apply_frame_axis0
  simp only [hcx, Bool.false_eq_true, if_false]
  simp [apply_frame_axis0.loop, hf, FrameM.chunk]

theorem claim_C7_witness :
    (apply_frame_axis0 ⟨false, 5, 7⟩
        (fun _ => Except.ok (FrameM.chunk ⟨false, 5, 7⟩)) 3).1 =
      Except.ok ([PieceV.copyDeep (FrameM.chunk ⟨false, 5, 7⟩)], false) ∧
      ([PieceV.copyDeep (FrameM.chunk ⟨false, 5, 7⟩)] : List PieceV).length = 1 :=
  claim_C7_same_object_short_circuits ⟨false, 5, 7⟩
    (fun _ => Except.ok (FrameM.chunk ⟨false, 5, 7⟩)) 3 rfl (by omega) rfl

/-- C8: `apply_frame_axis0` raises
`InvalidApply('Cannot modify frame index internals')` exactly when the
frame's index has complex internals, before constructing the `BlockSlider`
or touching any buffer (the event trace is empty); with a non-composite
index that error is never produced. -/
theorem claim_C8_complex_index (fr : FrameM) (f : Nat → Except Unit PieceV) (n : Nat) :
    (fr.hasComplexInternals = true →
      apply_frame_axis0 fr f n = (Except.error ApplyErr.complexIndex, [])) ∧
    (fr.hasComplexInternals = false →
      (apply_frame_axis0 fr f n).1 ≠ Except.error ApplyErr.complexIndex) := by
  constructor
  · intro h
    simp [apply_frame_axis0, h]
  · intro h
    simp only [apply_frame_axis0, h, Bool.false_eq_true, if_false]
    exact apply_frame_axis0.loop_no_complex fr f n 0 [] false [AEvent.sliderInit]

theorem claim_C8_witness :
    apply_frame_axis0 ⟨true, 0, 0⟩ (fun _ => Except.ok ⟨1, Option.none, false⟩) 2 =
      (Except.error ApplyErr.complexIndex, []) :=
  (claim_C8_complex_index ⟨true, 0, 0⟩ (fun _ => Except.ok ⟨1, Option.none, false⟩) 2).1 rfl

/-- C3: `Reducer.get_result`, `SeriesBinGrouper.get_result` and
`SeriesGrouper.get_result` restore the destination (dummy) buffer's original
data pointer, logical length and stride on every exit path — normal return
or any raised error, including callback exceptions — via the
`try/finally` reset. -/
theorem claim_C3_buffer_restoration :
    ∀ (r : Reducer) (fa : Nat → PyVal → Except Unit PyVal)
      (g : SeriesBinGrouper) (fb : Nat → Except Unit PyVal)
      (s : SeriesGrouper) (fc : Nat → Except Unit PyVal),
      (Reducer.get_result r fa).2 = r.chunkBuf ∧
      (SeriesBinGrouper.get_result g fb).2 = (g.dummy_arr, g.dummy_index) ∧
      (SeriesGrouper.get_result s fc).2 = (s.dummy_arr, s.dummy_index) :=
  fun r fa g fb s fc =>
    ⟨reducer_get_result_restores r fa, sbg_get_result_restores g fb,
      sg_get_result_restores s fc⟩

/-- C4: when the supplied function returns its input chunk unchanged,
`Reducer.get_result` raises `ValueError('Function does not reduce')` right
after chunk 0's result is produced (`_get_result_array` rejects any
array-shaped first result). -/
theorem claim_C4_does_not_reduce (r : Reducer) (f : Nat → PyVal → Except Unit PyVal)
    (hn : 1 ≤ r.nresults) (hf : f 0 (Reducer.fInput r) = Except.ok (Reducer.fInput r)) :
    (Reducer.get_result r f).1 = Except.error ReducerErr.doesNotReduce := by
  obtain ⟨m, hm⟩ : ∃ m, r.nresults = m + 1 := ⟨r.nresults - 1, by omega⟩
  unfold Reducer.get_result
  rw [hm]
  have hraise : get_result_array_raises (unwrapValues (Reducer.fInput r)) r.chunksize = true := by
    unfold Reducer.fInput
    by_cases ht : r.hasTyp <;>
      simp [ht, unwrapValues, get_result_array_raises, PyVal.is_array]
  simp [Reducer.loop, hf, hraise]

theorem claim_C4_witness :
    (Reducer.get_result ⟨2, 3, 3, false, 100, ⟨0, 3, 1⟩⟩
        (fun _ v => Except.ok v)).1 = Except.error ReducerErr.doesNotReduce :=
  claim_C4_does_not_reduce ⟨2, 3, 3, false, 100, ⟨0, 3, 1⟩⟩
    (fun _ v => Except.ok v) (by decide) rfl

/-- C5: for every valid non-empty bin-edge array (non-decreasing, last edge
at most the data length), the counts array returned by
`SeriesBinGrouper.get_result` sums to `len(values)`, starts with `edges[0]`,
and has `len(edges)+1` entries unless the final edge equals the data length,
in which case exactly `len(edges)`. -/
theorem claim_C5_bin_counts (g : SeriesBinGrouper) (f : Nat → Except Unit PyVal)
    (b0 : Nat) (brest : List Nat) (b : Nat)
    (hbins : g.bins = b0 :: brest)
    (hsorted : List.Chain' (· ≤ ·) g.bins)
    (hlast : g.bins.getLast? = some b) (hble : b ≤ g.n)
    (res : List PyVal) (cnts : List Int)
    (hok : (SeriesBinGrouper.get_result g f).1 = Except.ok (res, cnts)) :
    cnts.sum = (g.n : Int) ∧ cnts.head? = some ((b0 : Nat) : Int) ∧
      cnts.length = (if b = g.n then g.bins.length else g.bins.length + 1) := by
  unfold SeriesBinGrouper.get_result at hok
  cases hcs : SeriesBinGrouper.counts g.bins g.n with
  | none =>
    simp only [hcs] at hok
    simp at hok
  | some cs =>
    simp only [hcs] at hok
    cases hout : (SeriesBinGrouper.loop f (SeriesBinGrouper.ngroups g.bins g.n)
        g.dummyLen cs 0
        { islider := Slider.init g.indexBuf g.dummy_index,
          vslider := Slider.init g.arrBuf g.dummy_arr,
          result := Option.none }).1 with
    | some e =>
      simp only [hout] at hok
      simp at hok
    | none =>
      cases hres : (SeriesBinGrouper.loop f (SeriesBinGrouper.ngroups g.bins g.n)
          g.dummyLen cs 0
          { islider := Slider.init g.indexBuf g.dummy_index,
            vslider := Slider.init g.arrBuf g.dummy_arr,
            result := Option.none }).2.result with
      | none =>
        simp only [hout, hres] at hok
        simp at hok
      | some rs =>
        simp only [hout, hres] at hok
        simp [maybe_convert_objects] at hok
        obtain ⟨hres2, hcnts⟩ := hok
        subst hcnts
        rw [hbins] at hcs hlast
        exact ⟨SeriesBinGrouper.counts_sum b0 brest g.n b hlast cs hcs,
          SeriesBinGrouper.counts_head b0 brest g.n cs hcs,
          by rw [hbins]; exact SeriesBinGrouper.counts_length b0 brest g.n b hlast cs hcs⟩

theorem claim_C5_witness :
    ([2, 1, 2] : List Int).sum = ((5 : Nat) : Int) ∧
      ([2, 1, 2] : List Int).head? = some ((2 : Nat) : Int) ∧
      ([2, 1, 2] : List Int).length =
        (if 3 = 5 then ([2, 3] : List Nat).length else ([2, 3] : List Nat).length + 1) :=
  claim_C5_bin_counts
    ⟨[2, 3], 5, 0, ⟨0, 5, 1⟩, ⟨50, 5, 1⟩, ⟨90, 0, 1⟩, ⟨95, 0, 1⟩⟩
    (fun _ => Except.ok PyVal.scalar) 2 [3] 3 rfl
    (by simp [List.chain'_cons]) rfl (by decide)
    [PyVal.scalar, PyVal.scalar, PyVal.scalar] [2, 1, 2] rfl

/-- C6 (amended): for label arrays in which every valid (non-negative) label
occupies a single maximal run — the code stores `counts[lab] = group_size`
by assignment, so a label split across several runs keeps only its last
run's size — rows labelled −1 contribute to no group count, the counts sum
to the number of rows with label ≠ −1, and that sum plus the number of
−1-labelled rows equals `len(values)`. -/
theorem claim_C6_label_counts (g : SeriesGrouper) (f : Nat → Except Unit PyVal)
    (hval : ∀ l ∈ g.labels, l = -1 ∨ (0 ≤ l ∧ l.toNat < g.ngroups))
    (hgrp : List.Pairwise (fun p q : Int × Nat => p.1 = -1 ∨ p.1 ≠ q.1) (runs g.labels))
    (res : List PyVal) (cnts : List Int)
    (hok : (SeriesGrouper.get_result g f).1 = Except.ok (res, cnts)) :
    cnts.sum = ((g.labels.filter (fun l => l != -1)).length : Int) ∧
      cnts.sum + ((g.labels.filter (fun l => l == -1)).length : Int) =
        (g.labels.length : Int) := by
  unfold SeriesGrouper.get_result at hok
  cases hout : (SeriesGrouper.loop f g.ngroups g.dummyLen g.labels
      { islider := Slider.init g.indexBuf g.dummy_index,
        vslider := Slider.init g.arrBuf g.dummy_arr,
        counts := List.replicate g.ngroups 0, result := Option.none,
        group_size := 0, pos := 0 }).1 with
  | some e =>
    simp only [hout] at hok
    simp at hok
  | none =>
    cases hres : (SeriesGrouper.loop f g.ngroups g.dummyLen g.labels
        { islider := Slider.init g.indexBuf g.dummy_index,
          vslider := Slider.init g.arrBuf g.dummy_arr,
          counts := List.replicate g.ngroups 0, result := Option.none,
          group_size := 0, pos := 0 }).2.result with
    | none =>
      simp only [hout, hres] at hok
      simp at hok
    | some rs =>
      simp only [hout, hres] at hok
      simp [maybe_convert_objects] at hok
      obtain ⟨hres2, hcnts⟩ := hok
      have hcounts := SeriesGrouper.loop_counts f g.ngroups g.dummyLen g.labels
        { islider := Slider.init g.indexBuf g.dummy_index,
          vslider := Slider.init g.arrBuf g.dummy_arr,
          counts := List.replicate g.ngroups 0, result := Option.none,
          group_size := 0, pos := 0 } hout
      rw [hcounts] at hcnts
      subst hcnts
      rw [countsFold_eq_runsFold]
      have hzero : ∀ p ∈ runs g.labels, p.1 ≠ -1 →
          0 ≤ p.1 ∧ p.1.toNat < (List.replicate g.ngroups (0 : Int)).length ∧
            (List.replicate g.ngroups (0 : Int)).getD p.1.toNat 0 = 0 := by
        intro p hp hpne
        rcases hval p.1 (runs_fst_mem g.labels p hp) with h | h
        · exact absurd h hpne
        · refine ⟨h.1, by simpa using h.2, ?_⟩
          have hlt : p.1.toNat < g.ngroups := h.2
          simp [List.getD_eq_getElem?_getD, List.getElem?_replicate, hlt]
      rw [runsFold_sum (runs g.labels) (List.replicate g.ngroups 0) hzero hgrp]
      rw [runSizesSum_eq]
      constructor
      · simp
      · have hsplit := filter_length_split g.labels
        simp
        omega

theorem claim_C6_witness :
    ([2, 1] : List Int).sum =
        (((([0, 0, 1] : List Int).filter (fun l => l != -1)).length : Nat) : Int) ∧
      ([2, 1] : List Int).sum +
          (((([0, 0, 1] : List Int).filter (fun l => l == -1)).length : Nat) : Int) =
        ((([0, 0, 1] : List Int).length : Nat) : Int) :=
  claim_C6_label_counts
    ⟨[0, 0, 1], 2, 0, ⟨0, 3, 1⟩, ⟨50, 3, 1⟩, ⟨90, 0, 1⟩, ⟨95, 0, 1⟩⟩
    (fun _ => Except.ok PyVal.scalar)
    (by decide) (by decide)
    [PyVal.scalar, PyVal.scalar] [2, 1] rfl

/-- C6 counterexample: labels `[0, 1, 0]` with `ngroups = 2` — label 0
occupies two separate runs, the second assignment overwrites the first, so
`sum(counts) + count(label == -1) = 2 ≠ 3 = len(values)`, falsifying the
claim for arbitrary label arrays. -/
theorem claim_C6_counterexample :
    (SeriesGrouper.get_result
        ⟨[0, 1, 0], 2, 0, ⟨0, 3, 1⟩, ⟨50, 3, 1⟩, ⟨90, 0, 1⟩, ⟨95, 0, 1⟩⟩
        (fun _ => Except.ok PyVal.scalar)).1 =
      Except.ok ([PyVal.scalar, PyVal.scalar], [1, 1]) ∧
    ¬ (([1, 1] : List Int).sum +
        (((([0, 1, 0] : List Int).filter (fun l => l == -1)).length : Nat) : Int) =
      ((([0, 1, 0] : List Int).length : Nat) : Int)) :=
  ⟨rfl, by decide⟩

theorem ediv_emod_zero_iff (v : Int) (h : (1000 : Int) ∣ v) :
    ((v / 1000) % 1000 = 0) ↔ (1000000 : Int) ∣ v := by
  obtain ⟨q, rfl⟩ := h
  rw [Int.mul_ediv_cancel_left _ (by norm_num : (1000 : Int) ≠ 0)]
  rw [← Int.dvd_iff_emod_eq_zero]
  rw [show (1000000 : Int) = 1000 * 1000 by norm_num]
  exact (mul_dvd_mul_iff_left (by norm_num : (1000 : Int) ≠ 0)).symm

theorem ediv2_emod_zero_iff (v : Int) (h : (1000000 : Int) ∣ v) :
    (((v / 1000) / 1000) % 1000 = 0) ↔ (1000000000 : Int) ∣ v := by
  obtain ⟨q, rfl⟩ := h
  have h1 : ((1000000 : Int) * q) / 1000 = 1000 * q := by
    rw [show (1000000 : Int) * q = 1000 * (1000 * q) by ring]
    exact Int.mul_ediv_cancel_left _ (by norm_num)
  rw [h1, Int.mul_ediv_cancel_left _ (by norm_num : (1000 : Int) ≠ 0)]
  rw [← Int.dvd_iff_emod_eq_zero]
  rw [show (1000000000 : Int) = 1000000 * 1000 by norm_num]
  exact (mul_dvd_mul_iff_left (by norm_num : (1000000 : Int) ≠ 0)).symm

/-- C9 (amended): the millisecond display branch of
`format_array_from_datetime` on the default (no format, no tz) path is
reachable — it triggers exactly when every non-NaT value is a whole number
of milliseconds and at least one non-NaT value is not a whole number of
seconds, despite the odd `if not show_ms` guard ordering. -/
theorem claim_C9_ms_branch (values : List Int) :
    basicFracDigits values = 3 ↔
      ((∀ v ∈ values, v ≠ NPY_NAT → (1000000 : Int) ∣ v) ∧
       (∃ v ∈ values, v ≠ NPY_NAT ∧ ¬ (1000000000 : Int) ∣ v)) := by
  unfold basicFracDigits formatShowFlags
  simp only [List.any_map, Function.comp]
  simp
  by_cases h1 : ∀ x ∈ values, ¬x = NPY_NAT → (1000 : Int) ∣ x
  · rw [if_pos h1]
    simp only []
    have hns0 : (values.any fun a => a != NPY_NAT && a % 1000 != 0) = false := by
      rw [List.any_eq_false]
      intro x hx
      by_cases hxn : x = NPY_NAT
      · simp [hxn]
      · have := Int.emod_eq_zero_of_dvd (h1 x hx hxn)
        simp [hxn, this]
    rw [hns0]
    simp only [Bool.false_eq_true, if_false]
    by_cases h2 : ∀ x ∈ values, ¬x = NPY_NAT → (1000000 : Int) ∣ x
    · have hus0 : (values.any fun a => a != NPY_NAT && a / 1000 % 1000 != 0) = false := by
        rw [List.any_eq_false]
        intro x hx
        by_cases hxn : x = NPY_NAT
        · simp [hxn]
        · have := (ediv_emod_zero_iff x (h1 x hx hxn)).mpr (h2 x hx hxn)
          simp [hxn, this]
      rw [hus0]
      simp only [Bool.false_eq_true, if_false]
      by_cases h3 : ∃ x ∈ values, ¬x = NPY_NAT ∧ ¬(1000000000 : Int) ∣ x
      · have hms1 : (values.any fun a => a != NPY_NAT && a / 1000 / 1000 % 1000 != 0) = true := by
          rw [List.any_eq_true]
          obtain ⟨x, hx, hxn, hx9⟩ := h3
          refine ⟨x, hx, ?_⟩
          have hne : ¬(x / 1000 / 1000 % 1000 = 0) := fun hz =>
            hx9 ((ediv2_emod_zero_iff x (h2 x hx hxn)).mp hz)
          simp [hxn, hne]
        rw [hms1]
        simp only [if_true]
        constructor
        · intro _
          exact ⟨h2, h3⟩
        · intro _
          trivial
      · have hms0b : (values.any fun a => a != NPY_NAT && a / 1000 / 1000 % 1000 != 0) = false := by
          rw [List.any_eq_false]
          intro x hx
          by_cases hxn : x = NPY_NAT
          · simp [hxn]
          · have h9 : (1000000000 : Int) ∣ x := by
              by_contra hc
              exact h3 ⟨x, hx, hxn, hc⟩
            have := (ediv2_emod_zero_iff x (h2 x hx hxn)).mpr h9
            simp [hxn, this]
        rw [hms0b]
        simp only [Bool.false_eq_true, if_false]
        constructor
        · intro h03
          simp at h03
        · rintro ⟨-, hB⟩
          exact absurd hB h3
    · have hus1 : (values.any fun a => a != NPY_NAT && a / 1000 % 1000 != 0) = true := by
        rw [List.any_eq_true]
        push_neg at h2
        obtain ⟨x, hx, hxn, hx6⟩ := h2
        refine ⟨x, hx, ?_⟩
        have hne : ¬(x / 1000 % 1000 = 0) := fun hz =>
          hx6 ((ediv_emod_zero_iff x (h1 x hx hxn)).mp hz)
        simp [hxn, hne]
      rw [hus1]
      simp only [if_true]
      constructor
      · intro h63
        simp at h63
      · rintro ⟨hA, -⟩
        exact absurd (fun x hx hxn => hA x hx hxn) h2
  · rw [if_neg h1]
    simp only []
    have hns1 : (values.any fun a => a != NPY_NAT && a % 1000 != 0) = true := by
      rw [List.any_eq_true]
      push_neg at h1
      obtain ⟨x, hx, hxn, hx3⟩ := h1
      refine ⟨x, hx, ?_⟩
      have hne : ¬(x % 1000 = 0) := fun hz => hx3 (Int.dvd_of_emod_eq_zero hz)
      simp [hxn, hne]
    rw [hns1]
    simp only [if_true]
    constructor
    · intro h93
      simp at h93
    · rintro ⟨hA, -⟩
      push_neg at h1
      obtain ⟨x, hx, hxn, hx3⟩ := h1
      exact absurd (dvd_trans (by norm_num : (1000 : Int) ∣ 1000000) (hA x hx hxn)) hx3

/-- C9 counterexample: the input `[1_500_000_000]` (1.5 seconds) takes the
millisecond branch and renders with exactly three fractional digits,
refuting the claim that the branch can never trigger on the default path. -/
theorem claim_C9_counterexample :
    format_array_from_datetime_basic [1500000000] = [some 3] := by
  decide

/-- C10: with `unit='ns'` and an integer-dtype input,
`array_with_unit_to_datetime` returns the values cast directly to
datetime64[ns] and a `None` timezone, with no bounds check and no
`OutOfBoundsDatetime`, for every errors policy. -/
theorem claim_C10_ns_integer_fast_path (values : UnitArr) (errors : Errors)
    (hdt : values.isIntegerDtype = true) :
    array_with_unit_to_datetime values TimeUnit.ns errors =
      AWUResult.m8 values.intVals Option.none := by
  simp [array_with_unit_to_datetime, hdt]

theorem claim_C10_witness :
    array_with_unit_to_datetime ⟨true, [9223372036854775807, -9223372036854775807], [], []⟩
        TimeUnit.ns Errors.raise =
      AWUResult.m8 [9223372036854775807, -9223372036854775807] Option.none :=
  claim_C10_ns_integer_fast_path
    ⟨true, [9223372036854775807, -9223372036854775807], [], []⟩ Errors.raise rfl

/-- C2 (amended): in `array_to_datetime`, when at least one string carried a
UTC offset, UTC normalization was not requested, the main loop completed,
and the mixed datetime/integer reconciliation did not divert first, the
outcome is decided by the whole `out_tzoffset_vals` set — which holds the
recorded offsets AND a `'naive'` marker per offset-naive datetime string: a
singleton offset yields the int64 array with that shared fixed offset; two
or more distinct entries (differing offsets, or one offset mixed with naive
strings) yield the object-output fallback.  The claim as stated — keyed on
the recorded offsets alone being numerically identical — is refuted by the
counterexample. -/
theorem claim_C2_offset_reconciliation (values : List DtElem) (errors : Errors)
    (reqIso : Bool) (st : A2DState)
    (hloop : a2dLoop errors false reqIso values a2dInit = Except.ok st)
    (hoff : st.seen_datetime_offset = true)
    (hmix : (st.seen_datetime && st.seen_integer) = true → errors = Errors.coerce) :
    (∀ s, st.out_tzoffset_vals = [TzMark.off s] →
      ∃ vals, array_to_datetime values errors false reqIso =
        A2DRes.numeric vals (some s)) ∧
    (2 ≤ st.out_tzoffset_vals.length →
      array_to_datetime values errors false reqIso = A2DRes.objectFallback) := by
  unfold array_to_datetime
  simp only [hloop]
  by_cases hdt : (st.seen_datetime && st.seen_integer) = true
  · have hco := hmix hdt
    subst hco
    simp only [hdt, if_true, hoff]
    constructor
    · intro s hs
      rw [hs]
      exact ⟨_, rfl⟩
    · intro hlen
      rcases hm : st.out_tzoffset_vals with _ | ⟨a, _ | ⟨b, t⟩⟩
      · rw [hm] at hlen
        simp at hlen
      · rw [hm] at hlen
        simp at hlen
      · cases a with
        | naive => rfl
        | off s2 => rfl
  · rw [Bool.not_eq_true] at hdt
    simp only [hdt, Bool.false_eq_true, if_false, hoff]
    constructor
    · intro s hs
      rw [hs]
      exact ⟨_, rfl⟩
    · intro hlen
      rcases hm : st.out_tzoffset_vals with _ | ⟨a, _ | ⟨b, t⟩⟩
      · rw [hm] at hlen
        simp at hlen
      · rw [hm] at hlen
        simp at hlen
      · cases a with
        | naive => rfl
        | off s2 => rfl

theorem claim_C2_witness :
    ∃ vals, array_to_datetime
        [DtElem.strISO (some 120) 0 true, DtElem.strISO (some 120) 86400000000000 true]
        Errors.raise false false = A2DRes.numeric vals (some 7200) :=
  (claim_C2_offset_reconciliation
      [DtElem.strISO (some 120) 0 true, DtElem.strISO (some 120) 86400000000000 true]
      Errors.raise false
      { ires := [-7200000000000, 79200000000000], seen_integer := false,
        seen_datetime := false, seen_datetime_offset := true,
        out_tzoffset_vals := [TzMark.off 7200] }
      rfl rfl (fun h => absurd h (by decide))).1 7200 rfl

/-- C2 counterexample: one ISO string with a +02:00 offset plus one
offset-naive ISO string.  All recorded offsets are numerically identical
(the single +02:00), UTC normalization is off, yet the function returns the
object-output fallback rather than the int64 array with a shared fixed
offset, because the tracking set also holds the `'naive'` marker. -/
theorem claim_C2_counterexample :
    (∃ st, a2dLoop Errors.raise false false
        [DtElem.strISO (some 120) 0 true, DtElem.strISO Option.none 86400000000000 true]
        a2dInit = Except.ok st ∧
      st.seen_datetime_offset = true ∧
      st.out_tzoffset_vals.filter TzMark.isOff = [TzMark.off 7200]) ∧
    array_to_datetime
        [DtElem.strISO (some 120) 0 true, DtElem.strISO Option.none 86400000000000 true]
        Errors.raise false false = A2DRes.objectFallback :=
  ⟨⟨{ ires := [-7200000000000, 86400000000000], seen_integer := false,
      seen_datetime := false, seen_datetime_offset := true,
      out_tzoffset_vals := [TzMark.off 7200, TzMark.naive] }, rfl, rfl, rfl⟩, rfl⟩

end PandasSpec
